import Mathlib

set_option maxRecDepth 100000

/-!
Verification of the tiktokApp repository (scripts/whisper_transcribe.py and
scripts/generate_emoji_overlays.py) against its natural-language specification.

The Python code is shallowly embedded: strings are Lean `String`s, Python sets
become `List String` with membership tests, Python dicts become association
lists, and IEEE-754 double arithmetic is modelled over `ℚ` with an explicit
round-to-nearest-even operation at 53 bits of precision.  Python's `str.lower`
and `str.upper` are modelled at ASCII precision (`Char.toLower`/`Char.toUpper`);
the lexicons of the program are matched by exact membership on both sides, so
nothing below depends on the behaviour of case mapping outside ASCII.

The accented / emoji string literals of the source file are double-encoded
("mojibake") in the repository; the embedding reproduces the exact code points
of the source literals, written with \u escapes.
-/

/-! ## Python string primitives -/

/-- Model of Python's `str.lower` at ASCII precision (the source lexicons are
matched by exact string equality, so only the code points used matter). -/
def pyLower (s : String) : String :=
  String.mk (s.data.map Char.toLower)

/-- Model of Python's `str.upper` at ASCII precision. -/
def pyUpper (s : String) : String :=
  String.mk (s.data.map Char.toUpper)

/-- Characters stripped by `str.strip('.,!?;:')` in the source. -/
def sentPunct : List Char := ['.', ',', '!', '?', ';', ':']

/-- Whitespace characters for no-argument `str.strip()` (ASCII whitespace). -/
def pyWs : List Char := [' ', '\t', '\n', '\r', '\x0b', '\x0c']

/-- Model of Python's `str.strip(chars)`: removes any of `cs` from both ends. -/
def pyStripChars (cs : List Char) (s : String) : String :=
  String.mk (((s.data.dropWhile (fun c => cs.contains c)).reverse.dropWhile
      (fun c => cs.contains c)).reverse)

/-- Removal of any of `cs` from the right end only (used to state the claim
text "strip trailing", which is compared against the code's two-sided strip). -/
def pyStripEndChars (cs : List Char) (s : String) : String :=
  String.mk ((s.data.reverse.dropWhile (fun c => cs.contains c)).reverse)

/-- Model of Python's no-argument `str.strip()`. -/
def pyStripWs (s : String) : String :=
  pyStripChars pyWs s

/-- Boolean test that `p` is a prefix of `l` (at the character-list level). -/
def charPrefixEq : List Char → List Char → Bool
  | [], _ => true
  | _ :: _, [] => false
  | a :: as, b :: bs => a == b && charPrefixEq as bs

/-- Helper for `containsSub`: does `p` occur in the list at any position. -/
def containsSubAux (p : List Char) : List Char → Bool
  | [] => charPrefixEq p []
  | c :: rest => charPrefixEq p (c :: rest) || containsSubAux p rest

/-- Model of Python's substring test `pat in s`. -/
def containsSub (pat s : String) : Bool :=
  containsSubAux pat.data s.data

/-- Model of `any(pattern in word for pattern in pats)`. -/
def pyAnyIn (pats : List String) (w : String) : Bool :=
  pats.any (fun p => containsSub p w)

/-- Association-list lookup, modelling `d[k]` / `k in d` for the Python dicts
of the source (whose literal keys are pairwise distinct). -/
def lookupMap : List (String × String) → String → Option String
  | [], _ => none
  | kv :: rest, w => if kv.1 = w then some kv.2 else lookupMap rest w

/-- Model of Python's `str.split(sep)` for a one-character separator:
splits at every occurrence, keeping empty fields. -/
def splitCharAux (c : Char) : List Char → List Char → List (List Char)
  | [], acc => [acc.reverse]
  | x :: xs, acc =>
    if x = c then acc.reverse :: splitCharAux c xs []
    else splitCharAux c xs (x :: acc)

/-- Model of Python's `str.split(sep)` with a one-character separator. -/
def splitChar (c : Char) (s : String) : List String :=
  (splitCharAux c s.data []).map String.mk

/-! ## Exact rational arithmetic

Batteries marks `Rat.add`, `Rat.mul` and `Rat.sub` `@[irreducible]`, which
blocks kernel evaluation of concrete instances; the operations below are the
same rational operations, phrased through `Rat.divInt` / `mkRat` (which are
kernel-computable and produce the canonical representation that the `Rat`
type invariant guarantees). -/

/-- Rational addition through `Rat.divInt`. -/
def qAdd (a b : ℚ) : ℚ := Rat.divInt (a.num * b.den + b.num * a.den) (a.den * b.den)

/-- Rational multiplication through `Rat.divInt`. -/
def qMul (a b : ℚ) : ℚ := Rat.divInt (a.num * b.num) (a.den * b.den)

/-- Rational negation through `Rat.divInt`. -/
def qNeg (a : ℚ) : ℚ := Rat.divInt (-a.num) a.den

/-- Rational subtraction. -/
def qSub (a b : ℚ) : ℚ := qAdd a (qNeg b)

/-- Rational division through `Rat.divInt`. -/
def qDiv (a b : ℚ) : ℚ := Rat.divInt (a.num * b.den) (a.den * b.num)

/-- Boolean strict order on rationals. -/
def qLt (a b : ℚ) : Bool := Rat.blt a b

/-- Boolean non-strict order on rationals. -/
def qLe (a b : ℚ) : Bool := !(Rat.blt b a)

/-- Absolute value. -/
def qAbs (a : ℚ) : ℚ := if qLt a 0 then qNeg a else a

/-- Embedding of an integer as a rational. -/
def qOfInt (n : ℤ) : ℚ := mkRat n 1

/-- Floor of a rational (`Int.fdiv` is floor division). -/
def ratFloor (q : ℚ) : ℤ := Int.fdiv q.num q.den

/-- Ceiling of a rational. -/
def ratCeil (q : ℚ) : ℤ := -(ratFloor (qNeg q))

/-- Natural-number power by structural recursion. -/
def qPow (b : ℚ) : ℕ → ℚ
  | 0 => 1
  | n + 1 => qMul (qPow b n) b

/-- Integer power. -/
def qZpow (b : ℚ) (e : ℤ) : ℚ :=
  match e with
  | .ofNat n => qPow b n
  | .negSucc n => qDiv 1 (qPow b (n + 1))

/-! ## IEEE-754 binary64 model

Python floats are IEEE-754 binary64 values; every finite double is an exact
rational, and each arithmetic operation rounds its exact rational result to
53 significand bits (round-to-nearest, ties-to-even).  `roundF` below is that
rounding, over exact rationals; the subnormal range is handled by clamping
the exponent at -1022, and overflow to infinity is outside the model (no
value in any claim comes near it). -/

/-- Fuelled base-`b` floor logarithm of a natural number (`fuel ≥ n` makes it
exact for `b ≥ 2`). -/
def natLogF (b : ℕ) : ℕ → ℕ → ℕ
  | 0, _ => 0
  | fuel + 1, n => if n < b then 0 else natLogF b fuel (n / b) + 1

/-- Fuelled base-`b` ceiling logarithm of a natural number. -/
def natClogF (b : ℕ) : ℕ → ℕ → ℕ
  | 0, _ => 0
  | fuel + 1, n => if n ≤ 1 then 0 else natClogF b fuel ((n + b - 1) / b) + 1

/-- Floor logarithm `⌊log_b q⌋` of a positive rational (`b ≥ 2`), via the
standard reduction to natural-number logarithms. -/
def ratLogFloor (b : ℕ) (q : ℚ) : ℤ :=
  if qLe (mkRat 1 1) q then ((natLogF b (ratFloor q).toNat (ratFloor q).toNat : ℕ) : ℤ)
  else -((natClogF b (ratCeil (qDiv 1 q)).toNat (ratCeil (qDiv 1 q)).toNat : ℕ) : ℤ)

/-- Round a rational to the nearest integer, ties to even. -/
def roundHalfEven (x : ℚ) : ℤ :=
  let n := ratFloor x
  let r := qSub x (qOfInt n)
  if qLt r (mkRat 1 2) then n
  else if qLt (mkRat 1 2) r then n + 1
  else if n % 2 = 0 then n else n + 1

/-- Round an exact rational to the nearest IEEE-754 binary64 value
(round-to-nearest, ties-to-even), returned as its exact rational value. -/
def roundF (q : ℚ) : ℚ :=
  if q = 0 then 0
  else
    let a := qAbs q
    let e : ℤ := max (ratLogFloor 2 a) (-1022)
    let scale : ℚ := qZpow 2 (52 - e)
    let m : ℤ := roundHalfEven (qMul a scale)
    let v : ℚ := qDiv (qOfInt m) scale
    if qLt q 0 then qNeg v else v

/-- Value of a list of decimal digit characters. -/
def digitsVal (l : List Char) : ℕ :=
  l.foldl (fun acc c => acc * 10 + (c.toNat - 48)) 0

/-- Model of Python's `int(str)`: optional sign followed by decimal digits
(`None` models the `ValueError` exception; underscores and surrounding
whitespace, which Python also accepts, are outside the model). -/
def pyInt (s : String) : Option ℤ :=
  match s.data with
  | '-' :: t => if t.isEmpty || !(t.all Char.isDigit) then none else some (-(digitsVal t : ℤ))
  | '+' :: t => if t.isEmpty || !(t.all Char.isDigit) then none else some ((digitsVal t : ℤ))
  | t => if t.isEmpty || !(t.all Char.isDigit) then none else some ((digitsVal t : ℤ))

/-- Model of Python's `float(str)` on finite decimal forms: optional sign,
integer and/or fractional digits, optional decimal exponent; the decimal
value is rounded to the nearest double.  `None` models the `ValueError`
exception (`inf`/`nan` spellings, underscores and surrounding whitespace are
outside the model). -/
def pyFloat (s : String) : Option ℚ :=
  let l := s.data
  let (neg, r1) : Bool × List Char :=
    match l with
    | '-' :: t => (true, t)
    | '+' :: t => (false, t)
    | t => (false, t)
  let ip := r1.takeWhile Char.isDigit
  let r2 := r1.dropWhile Char.isDigit
  let (fp, r3) : List Char × List Char :=
    match r2 with
    | '.' :: t => (t.takeWhile Char.isDigit, t.dropWhile Char.isDigit)
    | t => ([], t)
  if ip.isEmpty && fp.isEmpty then none
  else
    let mant := qAdd (qOfInt (digitsVal ip)) (qDiv (qOfInt (digitsVal fp)) (qPow (mkRat 10 1) fp.length))
    match r3 with
    | [] => some (roundF (if neg then qNeg mant else mant))
    | c :: t =>
      if c = 'e' ∨ c = 'E' then
        let (eneg, r4) : Bool × List Char :=
          match t with
          | '-' :: t2 => (true, t2)
          | '+' :: t2 => (false, t2)
          | t2 => (false, t2)
        if r4.isEmpty || !(r4.all Char.isDigit) then none
        else
          let ex : ℤ := if eneg then -(digitsVal r4 : ℤ) else (digitsVal r4 : ℤ)
          let v := qMul mant (qZpow (mkRat 10 1) ex)
          some (roundF (if neg then qNeg v else v))
      else none

/-- Python's `x % y` on floats for `y > 0` (mathematically exact on doubles). -/
def pyFmod (x y : ℚ) : ℚ := qSub x (qMul y (qOfInt (ratFloor (qDiv x y))))

/-- Two-character zero padding, modelling the `{:02d}` format. -/
def pad2 (n : ℤ) : String :=
  let s := toString n
  if s.length < 2 then "0" ++ s else s

/-- Translation of `format_timestamp_ass` (whisper_transcribe.py, lines
63-69) over the double model.  The floor divisions and `%` reductions are
exact double operations on the values in range; the one rounding operation is
the multiplication of the fractional part by 100, after which `int()`
truncates (the values being non-negative, truncation is the floor). -/
def format_timestamp_ass (seconds : ℚ) : String :=
  let hours : ℤ := ratFloor (qDiv seconds (mkRat 3600 1))
  let minutes : ℤ := ratFloor (qDiv (pyFmod seconds (mkRat 3600 1)) (mkRat 60 1))
  let secs : ℤ := ratFloor (pyFmod seconds (mkRat 60 1))
  let centisecs : ℤ := ratFloor (roundF (qMul (pyFmod seconds (mkRat 1 1)) (mkRat 100 1)))
  toString hours ++ ":" ++ pad2 minutes ++ ":" ++ pad2 secs ++ "." ++ pad2 centisecs

/-- Translation of `time_to_seconds` (generate_emoji_overlays.py, lines
67-73): split on `:`, parse hours and minutes as ints and the seconds field
as a float; `hours*3600 + minutes*60` is exact integer arithmetic and the
final addition of the seconds double is one rounding operation.  `None`
models the exceptions Python would raise (fewer than three fields, malformed
numbers). -/
def time_to_seconds (time_str : String) : Option ℚ :=
  match splitChar ':' time_str with
  | h :: m :: s :: _ =>
    match pyInt h, pyInt m, pyFloat s with
    | some hh, some mm, some ss =>
      some (roundF (qAdd (qOfInt (hh * 3600 + mm * 60)) ss))
    | _, _, _ => none
  | _ => none

/-! ## Python `repr` of a double

CPython renders a float as the shortest decimal string that parses back to
the same double, using fixed notation when the decimal exponent lies in
[-4, 16) and scientific notation otherwise.  The model below tries 1 to 17
significant digits (17 always round-trips) and renders the first width that
round-trips. -/

/-- Round a positive rational to `p` significant decimal digits (ties to
even), returning the digit block and the decimal exponent. -/
def sigRound (a : ℚ) (p : ℕ) : ℕ × ℤ :=
  let e := ratLogFloor 10 a
  let n := roundHalfEven (qMul a (qZpow (mkRat 10 1) ((p : ℤ) - 1 - e)))
  if n = 10 ^ p then (10 ^ (p - 1), e + 1) else (n.toNat, e)

/-- Exact rational value of the decimal `n × 10^(dexp - p + 1)`. -/
def sigValue (n : ℕ) (dexp : ℤ) (p : ℕ) : ℚ :=
  qMul (qOfInt (n : ℤ)) (qZpow (mkRat 10 1) (dexp - (p : ℤ) + 1))

/-- Render a `p`-significant-digit decimal in Python `repr` style. -/
def renderSig (n : ℕ) (dexp : ℤ) (p : ℕ) : String :=
  let ds := toString n
  if -4 ≤ dexp ∧ dexp < 16 then
    if (p : ℤ) - 1 ≤ dexp then
      ds ++ String.mk (List.replicate (dexp - ((p : ℤ) - 1)).toNat '0') ++ ".0"
    else if 0 ≤ dexp then
      String.mk (ds.data.take (dexp.toNat + 1)) ++ "." ++
        String.mk (ds.data.drop (dexp.toNat + 1))
    else
      "0." ++ String.mk (List.replicate (-dexp - 1).toNat '0') ++ ds
  else
    String.mk (ds.data.take 1) ++
      (if p ≤ 1 then "" else "." ++ String.mk (ds.data.drop 1)) ++
      "e" ++ (if dexp < 0 then "-" else "+") ++
      pad2 (if dexp < 0 then -dexp else dexp)

/-- Shortest round-tripping rendering: try 1..17 significant digits. -/
def pyReprLoop (a : ℚ) : ℕ → ℕ → String
  | _, 0 =>
    let ne := sigRound a 17
    renderSig ne.1 ne.2 17
  | p, fuel + 1 =>
    let ne := sigRound a p
    if roundF (sigValue ne.1 ne.2 p) = a then renderSig ne.1 ne.2 p
    else pyReprLoop a (p + 1) fuel

/-- Model of Python's `repr`/`str` on a finite double (as interpolated by the
f-strings of the overlay generator). -/
def pyRepr (q : ℚ) : String :=
  if q = 0 then "0.0"
  else if qLt q 0 then "-" ++ pyReprLoop (qNeg q) 1 17
  else pyReprLoop q 1 17

/-! ## Lexicons of `AIEnhancer.__init__`

The Python sets contain exactly the literal elements present in the source
(the `...` markers in the source are comments).  Element order is as written
in the source; membership is all that is ever used. -/

/-- Filler/stop words (`AIEnhancer.filler_words`). -/
def filler_words : List String :=
  ["the", "a", "an", "and", "or", "but", "in", "on", "at", "to", "for",
   "le", "la", "les", "un", "une", "des", "de", "du", "et", "ou", "mais"]

/-- Positive sentiment lexicon (`AIEnhancer.positive_words`).  The accented
entries are the exact (mojibake) code points of the source file. -/
def positive_words : List String :=
  ["love", "happy", "great", "amazing", "awesome", "perfect", "best",
   "amour", "aimer", "heureux", "heureuse", "gÃ©nial",
   "gÃ©niale", "super"]

/-- Negative sentiment lexicon (`AIEnhancer.negative_words`). -/
def negative_words : List String :=
  ["hate", "sad", "bad", "terrible", "awful", "worst", "horrible",
   "dÃ©tester", "triste", "mauvais", "mauvaise", "terrible",
   "horrible"]

/-- Energetic sentiment lexicon (`AIEnhancer.energetic_words`). -/
def energetic_words : List String :=
  ["fire", "lit", "hot", "crazy", "wild", "insane", "explosive",
   "feu", "chaud", "chaude", "fou", "folle", "dingue", "sauvage"]

/-- Emphasis lexicon (`AIEnhancer.emphasis_words`). -/
def emphasis_words : List String :=
  ["important", "never", "always", "must", "need", "critical",
   "important", "jamais", "toujours", "doit", "besoin", "critique"]

/-! Emoji glyph constants.  Each is the exact code-point sequence of the
corresponding (double-encoded) literal in the source file. -/

/-- Source literal for the sparkles glyph (the generic fallback). -/
def sparklesG : String := "âœ¨"

/-- Source literal for the fire glyph. -/
def fireG : String := "ðŸ”¥"

/-- Source literal for the thought-balloon glyph. -/
def thoughtG : String := "ðŸ’­"

/-- Source literal for the dash (motion) glyph. -/
def dashG : String := "ðŸ’¨"

/-- Source literal for the trophy glyph. -/
def trophyG : String := "ðŸ†"

/-- Source literal for the light-bulb glyph. -/
def bulbG : String := "ðŸ’¡"

/-- Source literal for the busts-in-silhouette glyph. -/
def peopleG : String := "ðŸ‘¥"

/-- Source literal for the alarm-clock glyph. -/
def clockG : String := "â°"

/-- Source literal for the thinking-face glyph. -/
def thinkG : String := "ðŸ¤”"

/-- Source literal for the red-heart glyph. -/
def heartG : String := "â¤ï¸"

/-- Source literal for the sparkling-heart glyph. -/
def heart2G : String := "ðŸ’–"

/-- Source literal for the thumbs-up glyph. -/
def thumbsG : String := "ðŸ‘"

/-- Source literal for the smiling-face glyph. -/
def smileG : String := "ðŸ˜Š"

/-- Flattened word-to-emoji map (`AIEnhancer.emoji_map`): the source's
`emoji_categories` holds exactly one literal category (`emotions_positive`),
whose entries are flattened in order.  The key `cÅ“ur` is the
source's (mojibake) spelling of "cœur". -/
def emoji_map : List (String × String) :=
  [("love", heartG), ("heart", heart2G), ("like", thumbsG), ("happy", smileG),
   ("amour", heartG), ("coeur", heart2G), ("cÅ“ur", heart2G),
   ("aimer", heartG)]

/-! ## `AIEnhancer` classification functions -/

/-- Translation of `AIEnhancer.analyze_sentiment` (whisper_transcribe.py,
lines 134-152): empty input is neutral; otherwise each non-empty word is
lowercased and stripped of `.,!?;:` on both ends, category occurrences are
counted, and the priority order energetic / positive / negative / neutral is
applied. -/
def analyze_sentiment (words_list : List String) : String :=
  if words_list.isEmpty then "neutral"
  else
    let words_lower := (words_list.filter (fun w => w != "")).map
      (fun w => pyStripChars sentPunct (pyLower w))
    let positive_count := words_lower.countP (fun w => positive_words.contains w)
    let negative_count := words_lower.countP (fun w => negative_words.contains w)
    let energetic_count := words_lower.countP (fun w => energetic_words.contains w)
    if 1 ≤ energetic_count then "energetic"
    else if negative_count < positive_count ∧ 1 ≤ positive_count then "positive"
    else if positive_count < negative_count ∧ 1 ≤ negative_count then "negative"
    else "neutral"

/-- Translation of `AIEnhancer.is_important_word` (lines 154-171).  The unused
`word_confidence` parameter of the source is omitted; `MAX_WORD_LENGTH = 100`
counts code points, as Python's `len` does on `str`. -/
def is_important_word (word : String) : Bool :=
  if word = "" ∨ 100 < word.length then false
  else if filler_words.contains word then false
  else if emphasis_words.contains word then true
  else if positive_words.contains word || negative_words.contains word ||
      energetic_words.contains word then true
  else if 5 ≤ word.length then true
  else false

/-- Substring patterns for the motion/action family (line 186). -/
def motionPats : List String :=
  ["ing", "ed", "run", "jump", "move", "work", "er", "ant", "ent",
   "courir", "sauter", "bouger", "travailler"]

/-- Substring patterns for the achievement family (line 189). -/
def achievementPats : List String :=
  ["achiev", "success", "complet", "finish", "accomplish",
   "rÃ©ussir", "succÃ¨s", "terminer", "accomplir"]

/-- Substring patterns for the learning family (line 192). -/
def learningPats : List String :=
  ["learn", "know", "understand", "study", "teach", "apprendre", "savoir",
   "comprendre", "Ã©tudier", "enseigner"]

/-- Substring patterns for the social family (line 195). -/
def socialPats : List String :=
  ["friend", "family", "people", "person", "team", "ami", "amis",
   "famille", "gens", "personne", "Ã©quipe"]

/-- Substring patterns for the temporal family (line 198). -/
def temporalPats : List String :=
  ["today", "tomorrow", "yesterday", "time", "moment",
   "aujourd\x27hui", "demain", "hier", "temps", "moment"]

/-- Substring patterns for the interrogative family (line 201). -/
def interrogPats : List String :=
  ["why", "how", "what", "question", "wonder", "pourquoi", "comment",
   "quoi", "question"]

/-- Translation of `AIEnhancer.assign_smart_emoji` (lines 173-204): exact map
lookup, then sentiment fallback, then the six substring pattern families in
source order, then the sparkles default. -/
def assign_smart_emoji (word : String) (sentiment : String) : String :=
  match lookupMap emoji_map word with
  | some e => e
  | none =>
    if sentiment = "positive" then sparklesG
    else if sentiment = "energetic" then fireG
    else if sentiment = "negative" then thoughtG
    else if pyAnyIn motionPats word then dashG
    else if pyAnyIn achievementPats word then trophyG
    else if pyAnyIn learningPats word then bulbG
    else if pyAnyIn socialPats word then peopleG
    else if pyAnyIn temporalPats word then clockG
    else if pyAnyIn interrogPats word then thinkG
    else sparklesG

/-- Translation of `AIEnhancer.get_contextual_emoji` (lines 206-219).  The
`if prev_words:` truthiness test is false both for `None` and for an empty
list. -/
def get_contextual_emoji (word : String) (prev_words : Option (List String))
    (next_words : Option (List String)) : Option String :=
  match lookupMap emoji_map word with
  | some e => some e
  | none =>
    match prev_words with
    | none => none
    | some pws =>
      if pws.isEmpty then none
      else
        let prev_text := pyLower (String.intercalate " " pws)
        if containsSub "on fire" prev_text && (word = "fire" || word = "hot")
          then some fireG
        else if containsSub "love" prev_text &&
            (word = "you" || word = "it" || word = "this") then some heartG
        else none

/-- Translation of `AIEnhancer.should_emphasize` (lines 221-223). -/
def should_emphasize (word : String) : Bool :=
  emphasis_words.contains word

/-! ## Claim-side formulations (C1, C4, C5) -/

/-- Formulation of claim C1 exactly as stated: normalization lowercases and
strips the punctuation characters from the trailing end only. -/
def sentimentClaimTrailing (words_list : List String) : String :=
  let norm := words_list.map (fun w => pyStripEndChars sentPunct (pyLower w))
  let pc := norm.countP (fun w => positive_words.contains w)
  let nc := norm.countP (fun w => negative_words.contains w)
  if norm.any (fun w => energetic_words.contains w) then "energetic"
  else if nc < pc ∧ 1 ≤ pc then "positive"
  else if pc < nc ∧ 1 ≤ nc then "negative"
  else "neutral"

/-- Claim C1 with the one amendment the code forces: normalization strips the
punctuation characters from both ends (Python `strip` is two-sided). -/
def sentimentClaimBoth (words_list : List String) : String :=
  let norm := words_list.map (fun w => pyStripChars sentPunct (pyLower w))
  let pc := norm.countP (fun w => positive_words.contains w)
  let nc := norm.countP (fun w => negative_words.contains w)
  if norm.any (fun w => energetic_words.contains w) then "energetic"
  else if nc < pc ∧ 1 ≤ pc then "positive"
  else if pc < nc ∧ 1 ≤ nc then "negative"
  else "neutral"

/-- Formulation of claim C4 in the claim's own clause order. -/
def importantClaim (word : String) : Bool :=
  if word = "" ∨ 100 < word.length then false
  else if filler_words.contains word then false
  else if emphasis_words.contains word then true
  else if positive_words.contains word || negative_words.contains word ||
      energetic_words.contains word then true
  else if 5 ≤ word.length then true
  else false

/-- Sentiment-label fallback table of claim C5, as an association list. -/
def sentimentFallback : List (String × String) :=
  [("positive", sparklesG), ("energetic", fireG), ("negative", thoughtG)]

/-- Ordered substring pattern families of claim C5, first match winning. -/
def patternFamilies : List (List String × String) :=
  [(motionPats, dashG), (achievementPats, trophyG), (learningPats, bulbG),
   (socialPats, peopleG), (temporalPats, clockG), (interrogPats, thinkG)]

/-- Formulation of claim C5: exact lookup, then the sentiment fallback table,
then the ordered rule list of pattern families, then the default glyph. -/
def assignEmojiClaim (word : String) (sentiment : String) : String :=
  match lookupMap emoji_map word with
  | some e => e
  | none =>
    match lookupMap sentimentFallback sentiment with
    | some e => e
    | none =>
      match patternFamilies.find? (fun r => pyAnyIn r.1 word) with
      | some r => r.2
      | none => sparklesG

/-! ## More Python string utilities (overlay generator) -/

/-- Boolean test modelling Python's `str.startswith`. -/
def pyStartsWith (p s : String) : Bool :=
  charPrefixEq p.data s.data

/-- Split a character list at the first occurrence of `c`. -/
def breakAtChar (c : Char) : List Char → Option (List Char × List Char)
  | [] => none
  | x :: t =>
    if x = c then some ([], t)
    else (breakAtChar c t).map (fun p => (x :: p.1, p.2))

/-- Model of Python's `str.split(sep, maxsplit)` for a one-character
separator: at most `maxsplit` splits, the remainder is kept whole. -/
def splitCharMaxGo (c : Char) : ℕ → List Char → List String
  | 0, l => [String.mk l]
  | m + 1, l =>
    match breakAtChar c l with
    | none => [String.mk l]
    | some p => String.mk p.1 :: splitCharMaxGo c m p.2

/-- Python `str.split(sep, maxsplit)` with a one-character separator. -/
def splitCharMax (c : Char) (maxsplit : ℕ) (s : String) : List String :=
  splitCharMaxGo c maxsplit s.data

/-- Fuelled worker for substring split (each step consumes at least one
character, so `fuel = length` is enough for a non-empty separator). -/
def splitSubAux (sep : List Char) : ℕ → List Char → List Char → List (List Char)
  | 0, rest, acc => [acc.reverse ++ rest]
  | fuel + 1, rest, acc =>
    match rest with
    | [] => [acc.reverse]
    | c :: t =>
      if charPrefixEq sep rest then
        acc.reverse :: splitSubAux sep fuel (rest.drop sep.length) []
      else splitSubAux sep fuel t (c :: acc)

/-- Model of Python's `str.split(sep)` for a non-empty string separator:
splits at every non-overlapping occurrence, left to right. -/
def pySplitSub (sep : String) (s : String) : List String :=
  (splitSubAux sep.data s.data.length s.data []).map String.mk

/-- Fuelled worker for `str.replace`. -/
def replaceAux (old new : List Char) : ℕ → List Char → List Char
  | 0, rest => rest
  | fuel + 1, rest =>
    match rest with
    | [] => []
    | c :: t =>
      if charPrefixEq old rest then new ++ replaceAux old new fuel (rest.drop old.length)
      else c :: replaceAux old new fuel t

/-- Model of Python's `str.replace(old, new)` for a non-empty `old`: replaces
every non-overlapping occurrence, left to right. -/
def pyReplace (s old new : String) : String :=
  String.mk (replaceAux old.data new.data s.data.length s.data)

/-- Model of Python's `str.join` on a separator (only `";".join` is used). -/
def joinSep (sep : String) : List String → String
  | [] => ""
  | [x] => x
  | x :: t => x ++ sep ++ joinSep sep t

/-! ## Emoji extraction (`parse_ass_file`)

The source matches runs of emoji-range characters or escaped-Unicode
sequences with the regex of lines 41-53 and collects `findall` results.  The
pattern is a single repeated group, so for each run `findall` yields the
group's final repetition, i.e. the last single character or escape sequence
of the run.  The `\ud[89a-fA-F][0-9a-fA-F]{2}` alternative is subsumed by the
`\u[0-9a-fA-F]{4}` alternative that precedes it (its matches are exactly
six characters `\u` + four hex digits), so it can never be selected. -/

/-- Character-class alternatives of the emoji regex (lines 43-48). -/
def inEmojiRanges (c : Char) : Bool :=
  let v := c.toNat
  (0x1F600 ≤ v && v ≤ 0x1F64F) ||
  (0x1F300 ≤ v && v ≤ 0x1F5FF) ||
  (0x1F680 ≤ v && v ≤ 0x1F6FF) ||
  (0x1F1E0 ≤ v && v ≤ 0x1F1FF) ||
  (0x2702 ≤ v && v ≤ 0x27B0) ||
  (0x24C2 ≤ v && v ≤ 0x1F251)

/-- Hexadecimal digit test (`[0-9a-fA-F]`). -/
def isHexDigitB (c : Char) : Bool :=
  c.isDigit || ('a' ≤ c && c ≤ 'f') || ('A' ≤ c && c ≤ 'F')

/-- One repetition of the regex group: a single emoji-range character, or a
`\uXXXX` / `\UXXXXXXXX` escape sequence.  Returns the consumed characters and
the remaining input. -/
def emojiUnit : List Char → Option (List Char × List Char)
  | [] => none
  | c :: t =>
    if inEmojiRanges c then some ([c], t)
    else if c = '\\' then
      match t with
      | 'u' :: t2 =>
        let h := t2.take 4
        if h.length = 4 && h.all isHexDigitB then some ('\\' :: 'u' :: h, t2.drop 4)
        else none
      | 'U' :: t2 =>
        let h := t2.take 8
        if h.length = 8 && h.all isHexDigitB then some ('\\' :: 'U' :: h, t2.drop 8)
        else none
      | _ => none
    else none

/-- Greedy repetition of the group: consume units while possible, keeping the
last unit (the group capture `findall` reports). -/
def emojiRunAux : ℕ → List Char → List Char → List Char × List Char
  | 0, lastUnit, rest => (lastUnit, rest)
  | fuel + 1, lastUnit, rest =>
    match emojiUnit rest with
    | none => (lastUnit, rest)
    | some p => emojiRunAux fuel p.1 p.2

/-- Left-to-right non-overlapping scan of `findall` over the text. -/
def findEmojisAux : ℕ → List Char → List String
  | 0, _ => []
  | fuel + 1, l =>
    match l with
    | [] => []
    | _ :: t =>
      match emojiUnit l with
      | none => findEmojisAux fuel t
      | some p =>
        let run := emojiRunAux p.2.length p.1 p.2
        String.mk run.1 :: findEmojisAux fuel run.2

/-- Model of `emoji_pattern.findall(text)` (lines 41-55): one capture per
maximal run, the capture being the run's last repetition. -/
def regexFindall (text : String) : List String :=
  findEmojisAux text.data.length text.data

/-- An extracted emoji occurrence (the `EmojiData` TypedDict of the source):
glyph (or escape sequence), the dialogue line's start and end timestamp
fields, and the line's text field. -/
structure EmojiData where
  emoji : String
  start : String
  end_ : String
  text : String
deriving DecidableEq

/-- Translation of `parse_ass_file` (generate_emoji_overlays.py, lines
20-65): take the text between the first and second `[Events]` markers (or ""
when the marker is absent), and for each `Dialogue:` line with at least ten
comma fields (`split(',', 9)`) record one occurrence per regex capture,
copying the line's start/end fields verbatim. -/
def parse_ass_file (content : String) : List EmojiData :=
  let events_section :=
    if containsSub "[Events]" content then (pySplitSub "[Events]" content).getD 1 ""
    else ""
  ((splitChar '\n' events_section).map (fun line =>
    if pyStartsWith "Dialogue:" line then
      let parts := splitCharMax ',' 9 line
      if parts.length < 10 then []
      else
        (regexFindall (parts.getD 9 "")).map (fun e =>
          { emoji := e, start := parts.getD 1 "", end_ := parts.getD 2 "",
            text := parts.getD 9 "" })
    else [])).join

/-! ## Escaped-Unicode normalization (`emoji.encode().decode('unicode-escape')`)

The source re-encodes each captured string to UTF-8 bytes and decodes those
bytes with the `unicode-escape` codec, falling back to the original string if
decoding raises.  The codec maps plain bytes to U+00..U+FF (Latin-1) and
interprets backslash escapes.  Two corners are modelled conservatively and
cannot affect any claim: a `\N{name}` escape (resolved by CPython through the
Unicode name database) is modelled as a decoding failure, and a decoded lone
surrogate (a legal Python string element with no `Char` counterpart) is
modelled as the reserved pair U+FFFF followed by a private-use code point,
which can never equal a glyph key of a JSON image map. -/

/-- Octal digit test. -/
def isOctDigit (c : Char) : Bool :=
  '0' ≤ c && c ≤ '7'

/-- Value of a hexadecimal digit character. -/
def hexDigitVal (c : Char) : ℕ :=
  if c.isDigit then c.toNat - 48
  else if 'a' ≤ c && c ≤ 'f' then c.toNat - 87
  else c.toNat - 55

/-- Value of a list of hexadecimal digit characters. -/
def hexListVal (l : List Char) : ℕ :=
  l.foldl (fun a c => a * 16 + hexDigitVal c) 0

/-- Value of a list of octal digit characters. -/
def octListVal (l : List Char) : ℕ :=
  l.foldl (fun a c => a * 8 + (c.toNat - 48)) 0

/-- UTF-8 encoding of one character (`str.encode()`). -/
def utf8Bytes (c : Char) : List ℕ :=
  let v := c.toNat
  if v < 0x80 then [v]
  else if v < 0x800 then [0xC0 + v / 0x40, 0x80 + v % 0x40]
  else if v < 0x10000 then
    [0xE0 + v / 0x1000, 0x80 + (v / 0x40) % 0x40, 0x80 + v % 0x40]
  else
    [0xF0 + v / 0x40000, 0x80 + (v / 0x1000) % 0x40, 0x80 + (v / 0x40) % 0x40,
     0x80 + v % 0x40]

/-- UTF-8 byte sequence of a string. -/
def strUtf8 (s : String) : List ℕ :=
  (s.data.map utf8Bytes).join

/-- Characters denoted by a decoded code point, with the reserved-pair
convention for lone surrogates described above; `none` for values beyond
U+10FFFF (a `UnicodeDecodeError` in Python). -/
def cpChars (v : ℕ) : Option (List Char) :=
  if v < 0xD800 then some [Char.ofNat v]
  else if v < 0xE000 then some [Char.ofNat 0xFFFF, Char.ofNat (0xE000 + (v - 0xD800))]
  else if v < 0x110000 then some [Char.ofNat v]
  else none

/-- Fuelled `unicode-escape` decoder over the byte sequence (presented as
Latin-1 characters; every input byte is below 0x100). -/
def unicodeEscapeAux : ℕ → List Char → Option (List Char)
  | 0, l => match l with | [] => some [] | _ => none
  | fuel + 1, l =>
    match l with
    | [] => some []
    | '\\' :: t =>
      match t with
      | [] => none
      | e :: t2 =>
        if e = '\n' then unicodeEscapeAux fuel t2
        else if e = '\\' then (fun r => '\\' :: r) <$> unicodeEscapeAux fuel t2
        else if e = '\x27' then (fun r => '\x27' :: r) <$> unicodeEscapeAux fuel t2
        else if e = '"' then (fun r => '"' :: r) <$> unicodeEscapeAux fuel t2
        else if e = 'b' then (fun r => '\x08' :: r) <$> unicodeEscapeAux fuel t2
        else if e = 'f' then (fun r => '\x0c' :: r) <$> unicodeEscapeAux fuel t2
        else if e = 't' then (fun r => '\t' :: r) <$> unicodeEscapeAux fuel t2
        else if e = 'n' then (fun r => '\n' :: r) <$> unicodeEscapeAux fuel t2
        else if e = 'r' then (fun r => '\r' :: r) <$> unicodeEscapeAux fuel t2
        else if e = 'v' then (fun r => '\x0b' :: r) <$> unicodeEscapeAux fuel t2
        else if e = 'a' then (fun r => '\x07' :: r) <$> unicodeEscapeAux fuel t2
        else if isOctDigit e then
          let more := (t2.takeWhile isOctDigit).take 2
          (fun r => Char.ofNat (octListVal (e :: more)) :: r) <$>
            unicodeEscapeAux fuel (t2.drop more.length)
        else if e = 'x' then
          let h := t2.take 2
          if h.length = 2 && h.all isHexDigitB then
            (fun r => Char.ofNat (hexListVal h) :: r) <$>
              unicodeEscapeAux fuel (t2.drop 2)
          else none
        else if e = 'u' then
          let h := t2.take 4
          if h.length = 4 && h.all isHexDigitB then
            match cpChars (hexListVal h) with
            | some cs => (fun r => cs ++ r) <$> unicodeEscapeAux fuel (t2.drop 4)
            | none => none
          else none
        else if e = 'U' then
          let h := t2.take 8
          if h.length = 8 && h.all isHexDigitB then
            match cpChars (hexListVal h) with
            | some cs => (fun r => cs ++ r) <$> unicodeEscapeAux fuel (t2.drop 8)
            | none => none
          else none
        else if e = 'N' then none
        else (fun r => '\\' :: e :: r) <$> unicodeEscapeAux fuel t2
    | c :: t => (fun r => c :: r) <$> unicodeEscapeAux fuel t

/-- `s.encode().decode('unicode-escape')`, `none` modelling the exception. -/
def pyUnicodeEscapeDecode (s : String) : Option String :=
  let bytes := strUtf8 s
  (unicodeEscapeAux bytes.length (bytes.map Char.ofNat)).map String.mk

/-- The try/except of lines 97-102: decode where possible, otherwise keep the
original string. -/
def resolveEmoji (e : String) : String :=
  match pyUnicodeEscapeDecode e with
  | some d => d
  | none => e

/-! ## Overlay filter generation (`generate_overlay_filter`) -/

/-- Python `repr` of the seconds value of a timestamp field, as interpolated
by the clause f-strings (`none` models the exception raised on a malformed
timestamp). -/
def secondsRepr (t : String) : Option String :=
  (time_to_seconds t).map pyRepr

/-- One overlay clause for the occurrence at (enumerate) index `i` (lines
114-115): a time-shifted movie layer `emoji i`, composited from layer `v i`
onto layer `v (i+1)` while the time is within the occurrence's range. -/
def overlayClause (i : ℕ) (image_path ss es : String) : String :=
  "movie=" ++ image_path ++ ":loop=0,setpts=PTS-STARTPTS+" ++ ss ++
    "/TB[emoji" ++ toString i ++ "];[v" ++ toString i ++ "][emoji" ++ toString i ++
    "]overlay=x=W/2+100:y=H/2:enable=\x27between(t," ++ ss ++ "," ++ es ++
    ")\x27[v" ++ toString (i + 1) ++ "]"

/-- The warning printed for a glyph absent from the image map (line 105). -/
def warnMsg (e : String) : String :=
  "Warning: Emoji \x27" ++ e ++ "\x27 not found in emoji map"

/-- Loop of lines 93-117 over `enumerate(emojis_data)`: first component the
clauses accumulated (`none` once a surviving occurrence has a malformed
timestamp, where Python raises), second component the warnings printed. -/
def overlayGo (m : List (String × String)) : ℕ → List EmojiData →
    Option (List String) × List String
  | _, [] => (some [], [])
  | i, d :: rest =>
    let e := resolveEmoji d.emoji
    match lookupMap m e with
    | none =>
      let pr := overlayGo m (i + 1) rest
      (pr.1, warnMsg e :: pr.2)
    | some path =>
      match secondsRepr d.start, secondsRepr d.end_ with
      | some ss, some es =>
        let pr := overlayGo m (i + 1) rest
        (pr.1.map (fun cls => overlayClause i path ss es :: cls), pr.2)
      | _, _ => (none, [])

/-- Translation of `generate_overlay_filter` (lines 75-124), with the parsed
JSON image map as a parameter: build one clause per surviving occurrence and
join the clauses with `";"`; the empty string when no clause survives.
`none` models an uncaught exception. -/
def generate_overlay_filter (emojis_data : List EmojiData)
    (emoji_map_json : List (String × String)) : Option String :=
  match (overlayGo emoji_map_json 0 emojis_data).1 with
  | none => none
  | some [] => some ""
  | some l => some (joinSep ";" l)

/-- The warnings printed by `generate_overlay_filter` before it returns or
raises. -/
def generate_overlay_warnings (emojis_data : List EmojiData)
    (emoji_map_json : List (String × String)) : List String :=
  (overlayGo emoji_map_json 0 emojis_data).2

/-! ## Overlay generator CLI (`__main__`, lines 126-148) -/

/-- Observable outcome of a run: exit status and the file writes performed. -/
structure RunResult where
  exit : ℕ
  writes : List (String × String)
deriving DecidableEq

/-- Translation of the `__main__` block: exit 1 when no file argument is
given; otherwise parse the input file (whose content is passed as
`inputContent`; `none` models a missing file, i.e. an uncaught exception),
and only when at least one occurrence was extracted generate the filter
(the parsed JSON image map is `mapJson`; `none` models a missing
emoji_map.json, for which `generate_overlay_filter` prints an error and
returns "") and write it to the input path with `.ass` replaced by
`_emoji_filter.txt`. -/
def overlayMain (argv : List String) (inputContent : Option String)
    (mapJson : Option (List (String × String))) : Option RunResult :=
  if argv.length < 2 then some ⟨1, []⟩
  else
    match inputContent with
    | none => none
    | some content =>
      let emojis_data := parse_ass_file content
      if emojis_data.isEmpty then some ⟨0, []⟩
      else
        match (match mapJson with
               | none => some ""
               | some m => generate_overlay_filter emojis_data m) with
        | none => none
        | some fstr =>
          some ⟨0, [(pyReplace (argv.getD 1 "") ".ass" "_emoji_filter.txt", fstr)]⟩

/-- The parse-then-generate pipeline as one function of its two inputs. -/
def overlayPipeline (content : String) (m : List (String × String)) : Option String :=
  generate_overlay_filter (parse_ass_file content) m

/-! ## Claim-side formulations (C2) -/

/-- Indexing from `i`, modelling `enumerate`. -/
def listEnumFrom {α : Type} : ℕ → List α → List (ℕ × α)
  | _, [] => []
  | i, a :: t => (i, a) :: listEnumFrom (i + 1) t

/-- Option-valued `mapM` specialized to lists. -/
def mapMOption {α β : Type} (f : α → Option β) : List α → Option (List β)
  | [] => some []
  | a :: t =>
    match f a, mapMOption f t with
    | some b, some bs => some (b :: bs)
    | _, _ => none

/-- An occurrence survives when its resolved glyph is in the image map. -/
def survives (m : List (String × String)) (d : EmojiData) : Bool :=
  (lookupMap m (resolveEmoji d.emoji)).isSome

/-- The clause the claim associates with an occurrence carrying index `i`. -/
def clauseFor (m : List (String × String)) (i : ℕ) (d : EmojiData) : Option String :=
  match lookupMap m (resolveEmoji d.emoji), secondsRepr d.start, secondsRepr d.end_ with
  | some path, some ss, some es => some (overlayClause i path ss es)
  | _, _, _ => none

/-- Claim C2 as amended: each surviving occurrence keeps its index in the
full extracted list (skipped occurrences included), its clause consumes layer
`v i` and produces layer `v (i+1)` for that original index, the clauses are
joined with ";" with no trailing separator, and the result is the empty
string when no occurrence survives. -/
def c2ChainAmended (ed : List EmojiData) (m : List (String × String)) : Option String :=
  let survivors := (listEnumFrom 0 ed).filter (fun p => survives m p.2)
  match mapMOption (fun p => clauseFor m p.1 p.2) survivors with
  | none => none
  | some [] => some ""
  | some l => some (joinSep ";" l)

/-- Claim C2 as stated: the surviving clauses are numbered consecutively, so
each surviving clause's input layer is the previous surviving clause's output
layer, starting at the initial video layer `v 0`. -/
def c2ChainClaim (ed : List EmojiData) (m : List (String × String)) : Option String :=
  let survivors := ((listEnumFrom 0 ed).filter (fun p => survives m p.2)).map (fun p => p.2)
  match mapMOption (fun p => clauseFor m p.1 p.2) (listEnumFrom 0 survivors) with
  | none => none
  | some [] => some ""
  | some l => some (joinSep ";" l)

/-! ## Annotation emitter (`transcribe_to_srt` word loop, lines 310-365) -/

/-- One word token of the external model's output: literal text and start/end
times (exact values of the doubles). -/
structure WordTok where
  word : String
  start : ℚ
  end_ : ℚ
deriving DecidableEq

/-- One emitted `Dialogue:` event: start/end timestamp fields, style name and
text field. -/
structure Event where
  start : String
  end_ : String
  style : String
  text : String
deriving DecidableEq

/-- The pop-in animation directive (lines 338 and 348; both f-string
constants are identical). -/
def animDirective : String := "\\t(0, 150, \\fscx125\\fscy125)"

/-- The word normalization of line 334-335: whitespace-strip, lowercase,
strip `.,!?;:` from both ends. -/
def normWord (w : String) : String :=
  pyStripChars sentPunct (pyLower (pyStripWs w))

/-- The celebration word list of lines 358-359 (source code points). -/
def celebrationWords : List String :=
  ["party", "celebrate", "congrats", "congratulations", "birthday",
   "fÃªte", "fÃªter", "cÃ©lÃ©brer", "anniversaire",
   "fÃ©licitations"]

/-- The emoji chosen for a word (lines 341-345): contextual lookup with empty
context, else the importance-gated smart assignment. -/
def wordEmoji (sentiment : String) (word_lower : String) : Option String :=
  match get_contextual_emoji word_lower none none with
  | some e => some e
  | none =>
    if is_important_word word_lower then some (assign_smart_emoji word_lower sentiment)
    else none

/-- The text of an event before the style override (lines 336-350): animation
directive, uppercased word, and the animated emoji token when one was
found. -/
def preText (sentiment : String) (w : WordTok) : String :=
  let word_clean := pyStripWs w.word
  let word_lower := pyStripChars sentPunct (pyLower word_clean)
  let text_raw := pyUpper word_clean
  let base := "\x7b" ++ animDirective ++ "\x7d" ++ text_raw
  match wordEmoji sentiment word_lower with
  | some e => base ++ " \x7b" ++ animDirective ++ "\x7d " ++ e
  | none => base

/-- The rotating color styles (line 352). -/
def colorStyles : List String :=
  ["Color1", "Color2", "Color3", "Color4", "Color5", "Color6"]

/-- The sparkle bookends of the emphasis override (line 357). -/
def sparkleWrap (t : String) : String :=
  sparklesG ++ " " ++ t ++ " " ++ sparklesG

/-- The event emitted for one word (lines 330-364): rotating color style by
`word_count % 6`, overridden in priority order by Emphasis (with sparkle
bookends), Celebration, Energetic. -/
def eventForWord (word_count : ℕ) (sentiment : String) (w : WordTok) : Event :=
  let word_lower := normWord w.word
  let text := preText sentiment w
  let st : String × String :=
    if should_emphasize word_lower then ("Emphasis", sparkleWrap text)
    else if celebrationWords.contains word_lower then ("Celebration", text)
    else if energetic_words.contains word_lower then ("Energetic", text)
    else (colorStyles.getD (word_count % 6) "", text)
  { start := format_timestamp_ass w.start, end_ := format_timestamp_ass w.end_,
    style := st.1, text := st.2 }

/-- Events of one segment, threading the global word counter. -/
def emitSegGo (sentiment : String) : ℕ → List WordTok → List Event
  | _, [] => []
  | wc, w :: ws => eventForWord wc sentiment w :: emitSegGo sentiment (wc + 1) ws

/-- The segment loop of lines 324-365: empty segments are skipped (the
`segment.words` truthiness test), each non-empty segment is classified once
and its words emitted with consecutive global indices. -/
def emitGo : ℕ → List (List WordTok) → List Event
  | _, [] => []
  | wc, seg :: rest =>
    if seg.isEmpty then emitGo wc rest
    else
      emitSegGo (analyze_sentiment (seg.map (fun w => w.word))) wc seg ++
        emitGo (wc + seg.length) rest

/-- The full event stream the annotator writes for a transcript. -/
def transcribe_events (segments : List (List WordTok)) : List Event :=
  emitGo 0 segments

/-- The words of a transcript in order, each paired with its segment's
sentiment label. -/
def flatWS : List (List WordTok) → List (WordTok × String)
  | [] => []
  | seg :: rest =>
    seg.map (fun w => (w, analyze_sentiment (seg.map (fun w2 => w2.word)))) ++
      flatWS rest

/-- The style claim C7 predicts for the word at (0-based) index `i`. -/
def c7Style (i : ℕ) (w : WordTok) : String :=
  if should_emphasize (normWord w.word) then "Emphasis"
  else if celebrationWords.contains (normWord w.word) then "Celebration"
  else if energetic_words.contains (normWord w.word) then "Energetic"
  else "Color" ++ toString (i % 6 + 1)

/-! ## Helper lemmas -/

/-- Dropping the empty strings before mapping and counting does not change the
count as long as the predicate rejects the image of the empty string. -/
theorem countP_filter_nonempty (l : List String) (f : String → String)
    (p : String → Bool) (h : p (f "") = false) :
    ((l.filter (fun w => w != "")).map f).countP p = (l.map f).countP p := by
  induction l with
  | nil => rfl
  | cons a t ih =>
    by_cases ha : a = ""
    · subst ha
      simp [List.filter_cons, List.countP_cons, h, ih]
    · simp [List.filter_cons, ha, List.countP_cons, ih]

/-- Values looked up in an association list are non-empty whenever every value
stored in the list is non-empty. -/
theorem lookupMap_ne_empty :
    ∀ (l : List (String × String)), l.all (fun kv => kv.2 != "") = true →
      ∀ {w e : String}, lookupMap l w = some e → e ≠ "" := by
  intro l
  induction l with
  | nil =>
    intro _ w e h
    simp [lookupMap] at h
  | cons a t ih =>
    intro hall w e h
    rw [List.all_cons, Bool.and_eq_true] at hall
    unfold lookupMap at h
    by_cases hk : a.1 = w
    · rw [if_pos hk] at h
      cases h
      simpa using hall.1
    · rw [if_neg hk] at h
      exact ih hall.2 h

/-! ## Claims C1, C4, C5, C10 -/

/-- C1 counterexample: on the word list `["!fire"]` the code strips the
leading `!` (Python `strip` is two-sided) and classifies "energetic", while
the claim's trailing-only normalization leaves `!fire` outside every lexicon
and would classify "neutral". -/
theorem claim_c1_counterexample :
    analyze_sentiment ["!fire"] = "energetic" ∧
      sentimentClaimTrailing ["!fire"] = "neutral" := by
  constructor <;> decide

/-- C1 (amended): for every list of words, `analyze_sentiment` normalizes each
word (lowercase, strip `.,!?;:` from both ends) and returns "energetic" if at
least one normalized word is in the energetic lexicon; else "positive" if
positive-count > negative-count and positive-count ≥ 1; else "negative" if
negative-count > positive-count and negative-count ≥ 1; else "neutral"
(including ties and the empty input). -/
theorem claim_c1_amended (words_list : List String) :
    analyze_sentiment words_list = sentimentClaimBoth words_list := by
  unfold analyze_sentiment sentimentClaimBoth
  by_cases h : words_list.isEmpty
  · rw [if_pos h]
    have hnil : words_list = [] := by
      cases words_list with
      | nil => rfl
      | cons a t => simp [List.isEmpty] at h
    subst hnil
    decide
  · rw [if_neg h]
    have hp : ((words_list.filter (fun w => w != "")).map
          (fun w => pyStripChars sentPunct (pyLower w))).countP
          (fun w => positive_words.contains w) =
        (words_list.map (fun w => pyStripChars sentPunct (pyLower w))).countP
          (fun w => positive_words.contains w) :=
      countP_filter_nonempty _ _ _ (by decide)
    have hn : ((words_list.filter (fun w => w != "")).map
          (fun w => pyStripChars sentPunct (pyLower w))).countP
          (fun w => negative_words.contains w) =
        (words_list.map (fun w => pyStripChars sentPunct (pyLower w))).countP
          (fun w => negative_words.contains w) :=
      countP_filter_nonempty _ _ _ (by decide)
    have he : ((words_list.filter (fun w => w != "")).map
          (fun w => pyStripChars sentPunct (pyLower w))).countP
          (fun w => energetic_words.contains w) =
        (words_list.map (fun w => pyStripChars sentPunct (pyLower w))).countP
          (fun w => energetic_words.contains w) :=
      countP_filter_nonempty _ _ _ (by decide)
    simp only [hp, hn, he]
    have hany : (1 ≤ (words_list.map (fun w => pyStripChars sentPunct (pyLower w))).countP
          (fun w => energetic_words.contains w)) ↔
        ((words_list.map (fun w => pyStripChars sentPunct (pyLower w))).any
          (fun w => energetic_words.contains w) = true) := by
      rw [List.any_eq_true]
      exact List.countP_pos_iff
    simp only [hany]

/-- C4: `is_important_word` follows exactly the claim's clause order (false on
empty or over-long words, false on filler words, true on emphasis words, true
on sentiment-lexicon words, true on length ≥ 5, false otherwise); in
particular every filler word is rejected. -/
theorem claim_c4 (word : String) :
    is_important_word word = importantClaim word ∧
      (filler_words.contains word = true → is_important_word word = false) := by
  refine ⟨rfl, ?_⟩
  intro hf
  have hall : filler_words.all (fun x => x != "" && decide (x.length ≤ 100)) = true := by
    decide
  have hm : word ∈ filler_words := by
    simpa using hf
  have hprop := List.all_eq_true.mp hall word hm
  have hne : ¬(word = "" ∨ 100 < word.length) := by
    simp only [Bool.and_eq_true, bne_iff_ne, ne_eq, decide_eq_true_eq] at hprop
    rintro (rfl | hlen)
    · exact hprop.1 rfl
    · omega
  unfold is_important_word
  rw [if_neg hne, if_pos hf]

/-- C4 witness at the filler word "the". -/
theorem claim_c4_witness : is_important_word "the" = false :=
  (claim_c4 "the").2 (by decide)

/-- C5: for every word and sentiment label `assign_smart_emoji` agrees with
the claim's ordered procedure (exact lookup, then the sentiment fallback
table, then the six pattern families in priority order, then the default
glyph), and its result is never the empty string. -/
theorem claim_c5 (word sentiment : String) :
    assign_smart_emoji word sentiment = assignEmojiClaim word sentiment ∧
      assign_smart_emoji word sentiment ≠ "" := by
  constructor
  · unfold assign_smart_emoji assignEmojiClaim
    cases hm : lookupMap emoji_map word with
    | some e => rfl
    | none =>
      by_cases h1 : sentiment = "positive"
      · subst h1; simp [sentimentFallback, lookupMap]
      · by_cases h2 : sentiment = "energetic"
        · subst h2; simp [sentimentFallback, lookupMap]
        · by_cases h3 : sentiment = "negative"
          · subst h3; simp [sentimentFallback, lookupMap]
          · have hfb : lookupMap sentimentFallback sentiment = none := by
              simp only [sentimentFallback, lookupMap]
              rw [if_neg (fun h => h1 h.symm), if_neg (fun h => h2 h.symm),
                if_neg (fun h => h3 h.symm)]
            rw [if_neg h1, if_neg h2, if_neg h3, hfb]
            by_cases b1 : pyAnyIn motionPats word = true
            · simp [patternFamilies, List.find?, b1]
            · by_cases b2 : pyAnyIn achievementPats word = true
              · simp [patternFamilies, List.find?, b1, b2]
              · by_cases b3 : pyAnyIn learningPats word = true
                · simp [patternFamilies, List.find?, b1, b2, b3]
                · by_cases b4 : pyAnyIn socialPats word = true
                  · simp [patternFamilies, List.find?, b1, b2, b3, b4]
                  · by_cases b5 : pyAnyIn temporalPats word = true
                    · simp [patternFamilies, List.find?, b1, b2, b3, b4, b5]
                    · by_cases b6 : pyAnyIn interrogPats word = true
                      · simp [patternFamilies, List.find?, b1, b2, b3, b4, b5, b6]
                      · simp [patternFamilies, List.find?, b1, b2, b3, b4, b5, b6]
  · cases hm : lookupMap emoji_map word with
    | some e =>
      unfold assign_smart_emoji
      rw [hm]
      exact lookupMap_ne_empty emoji_map (by decide) hm
    | none =>
      simp only [assign_smart_emoji, hm]
      repeat' split
      all_goals decide

/-- C10: the annotation emitter calls the context-aware lookup with empty
context (`None` for both windows), and with empty context
`get_contextual_emoji` coincides with a plain exact lookup in the
word-to-emoji map, returning `none` on a miss; the two context rules can
therefore never fire during emission. -/
theorem claim_c10 (word : String) :
    get_contextual_emoji word none none = lookupMap emoji_map word := by
  unfold get_contextual_emoji
  cases h : lookupMap emoji_map word <;> simp

/-- C3 (code bug): converting the markup timestamp `0:00:00.29` to seconds
and formatting it back yields `0:00:00.28`, not the same centisecond value:
`float("00.29")` is the double 5224175567749775/2^54, the double product with
100 rounds to just below 29, and `int()` truncates it to 28. -/
theorem claim_c3_bug :
    (time_to_seconds "0:00:00.29").map format_timestamp_ass = some "0:00:00.28" ∧
      "0:00:00.28" ≠ "0:00:00.29" := by
  constructor <;> decide

/-- C2 counterexample: with occurrences `A` (not in the map) and `B` (in the
map), the one surviving clause reads from layer `v1` and writes `v2` (its
enumerate index), while the claim's consecutive numbering would make it read
from the initial layer `v0` and write `v1`. -/
theorem claim_c2_counterexample :
    generate_overlay_filter
        [⟨"A", "0:00:01.00", "0:00:02.00", "A"⟩, ⟨"B", "0:00:01.00", "0:00:02.00", "B"⟩]
        [("B", "b.png")] = some (overlayClause 1 "b.png" "1.0" "2.0") ∧
      c2ChainClaim
        [⟨"A", "0:00:01.00", "0:00:02.00", "A"⟩, ⟨"B", "0:00:01.00", "0:00:02.00", "B"⟩]
        [("B", "b.png")] = some (overlayClause 0 "b.png" "1.0" "2.0") ∧
      generate_overlay_filter
        [⟨"A", "0:00:01.00", "0:00:02.00", "A"⟩, ⟨"B", "0:00:01.00", "0:00:02.00", "B"⟩]
        [("B", "b.png")] ≠
      c2ChainClaim
        [⟨"A", "0:00:01.00", "0:00:02.00", "A"⟩, ⟨"B", "0:00:01.00", "0:00:02.00", "B"⟩]
        [("B", "b.png")] := by
  refine ⟨by decide, by decide, by decide⟩

/-- C2 (amended): for every occurrence list and image map, the generator
builds one clause per surviving occurrence, the clause for the occurrence at
index `i` of the full extracted list (skipped occurrences included) consuming
layer `v i` and producing layer `v (i+1)`; the clauses are joined with the
fixed separator ";" with no trailing separator, and the result is the empty
string when no occurrence survives. -/
theorem claim_c2_amended (ed : List EmojiData) (m : List (String × String)) :
    generate_overlay_filter ed m = c2ChainAmended ed m := by
  have key : ∀ (l : List EmojiData) (i : ℕ),
      (overlayGo m i l).1 =
        mapMOption (fun p => clauseFor m p.1 p.2)
          ((listEnumFrom i l).filter (fun p => survives m p.2)) := by
    intro l
    induction l with
    | nil => intro i; rfl
    | cons d rest ih =>
      intro i
      unfold overlayGo listEnumFrom
      simp only [List.filter_cons]
      cases hl : lookupMap m (resolveEmoji d.emoji) with
      | none =>
        have hs : survives m d = false := by simp [survives, hl]
        simp [hs, ih (i + 1)]
      | some path =>
        have hs : survives m d = true := by simp [survives, hl]
        cases hss : secondsRepr d.start with
        | none =>
          simp [hs, mapMOption, clauseFor, hl, hss]
        | some ss =>
          cases hes : secondsRepr d.end_ with
          | none => simp [hs, mapMOption, clauseFor, hl, hss, hes]
          | some es =>
            have hcf : clauseFor m i d = some (overlayClause i path ss es) := by
              simp [clauseFor, hl, hss, hes]
            simp only [hs, if_true, hss, hes, mapMOption, hcf, ih (i + 1)]
            cases mapMOption (fun p => clauseFor m p.1 p.2)
              ((listEnumFrom (i + 1) rest).filter (fun p => survives m p.2)) <;> simp
  unfold generate_overlay_filter c2ChainAmended
  rw [key ed 0]

/-- C6 scenario: from the markup content holding `TEST 🔥` on the dialogue
line `0:00:01.00 → 0:00:01.50`, the parser extracts exactly one occurrence;
with an image map lacking an entry for the looked-up glyph the generator
skips it with one warning and produces the empty filter, and the CLI run
writes the empty filter file and terminates with exit status 0. -/
theorem claim_c6 :
    parse_ass_file
        "[Script Info]\nTitle: TikTok Captions\n\n[Events]\nFormat: Layer, Start, End, Style, Name, MarginL, MarginR, MarginV, Effect, Text\nDialogue: 0,0:00:00.00,0:00:00.50,Yellow,,0,0,0,,HELLO\nDialogue: 0,0:00:00.50,0:00:01.00,White,,0,0,0,,WORLD\nDialogue: 0,0:00:01.00,0:00:01.50,Cyan,,0,0,0,,TEST 🔥\n" =
      [⟨"🔥", "0:00:01.00", "0:00:01.50", "TEST 🔥"⟩] ∧
    generate_overlay_filter [⟨"🔥", "0:00:01.00", "0:00:01.50", "TEST 🔥"⟩] [] =
      some "" ∧
    generate_overlay_warnings [⟨"🔥", "0:00:01.00", "0:00:01.50", "TEST 🔥"⟩] [] =
      [warnMsg "ð\u009F\u0094¥"] ∧
    overlayMain ["generate_emoji_overlays.py", "/tmp/test_subtitles.ass"]
        (some "[Script Info]\nTitle: TikTok Captions\n\n[Events]\nFormat: Layer, Start, End, Style, Name, MarginL, MarginR, MarginV, Effect, Text\nDialogue: 0,0:00:00.00,0:00:00.50,Yellow,,0,0,0,,HELLO\nDialogue: 0,0:00:00.50,0:00:01.00,White,,0,0,0,,WORLD\nDialogue: 0,0:00:01.00,0:00:01.50,Cyan,,0,0,0,,TEST 🔥\n")
        (some []) =
      some ⟨0, [("/tmp/test_subtitles_emoji_filter.txt", "")]⟩ := by
  refine ⟨by decide, by decide, by decide, by decide⟩

/-- C8 counterexample: invoked on a markup file whose content yields no emoji
occurrence, the program writes nothing at all (the write is guarded by the
`if emojis_data:` truthiness test), contradicting the claim that every
invocation with a file argument writes the result file. -/
theorem claim_c8_counterexample :
    overlayMain ["generate_emoji_overlays.py", "t.ass"] (some "") (some []) =
        some ⟨0, []⟩ ∧
      (⟨0, []⟩ : RunResult) ≠ ⟨0, [("t_emoji_filter.txt", "")]⟩ := by
  constructor <;> decide

/-- C8 (amended): with no file argument the program exits with code 1 before
reading anything; with a file argument it writes the generated filter to the
input path with `.ass` replaced by `_emoji_filter.txt` — but only when at
least one emoji occurrence was extracted; otherwise it writes nothing and
still exits 0. -/
theorem claim_c8_amended :
    (∀ fs m, overlayMain [] fs m = some ⟨1, []⟩) ∧
    (∀ p fs m, overlayMain [p] fs m = some ⟨1, []⟩) ∧
    (∀ p f rest m, overlayMain (p :: f :: rest) none m = none) ∧
    (∀ p f rest content mj,
      overlayMain (p :: f :: rest) (some content) mj =
        (if (parse_ass_file content).isEmpty then some ⟨0, []⟩
         else
           match (match mj with
                  | none => some ""
                  | some m => generate_overlay_filter (parse_ass_file content) m) with
           | none => none
           | some fstr =>
             some ⟨0, [(pyReplace f ".ass" "_emoji_filter.txt", fstr)]⟩)) := by
  have hlen : ∀ (p f : String) (rest : List String),
      ¬((p :: f :: rest).length < 2) := by
    intro p f rest
    simp only [List.length_cons]
    omega
  refine ⟨fun fs m => rfl, fun p fs m => rfl, ?_, ?_⟩
  · intro p f rest m
    unfold overlayMain
    rw [if_neg (hlen p f rest)]
  · intro p f rest content mj
    unfold overlayMain
    rw [if_neg (hlen p f rest)]
    rfl

/-- C9: the parse-then-generate transform is a pure function of the markup
content and the image map, so two runs on the same inputs produce identical
(byte-identical) filter output. -/
theorem claim_c9 (content : String) (m : List (String × String)) :
    overlayPipeline content m = overlayPipeline content m := rfl

/-- The per-segment emitter produces one event per word. -/
theorem emitSegGo_length (s : String) : ∀ (wc : ℕ) (ws : List WordTok),
    (emitSegGo s wc ws).length = ws.length := by
  intro wc ws
  induction ws generalizing wc with
  | nil => rfl
  | cons w t ih => simp [emitSegGo, ih]

/-- Indexing into the per-segment emitter. -/
theorem emitSegGo_get (s : String) : ∀ (ws : List WordTok) (wc i : ℕ),
    (emitSegGo s wc ws)[i]? = (ws[i]?).map (fun w => eventForWord (wc + i) s w) := by
  intro ws
  induction ws with
  | nil => intro wc i; simp [emitSegGo]
  | cons w t ih =>
    intro wc i
    cases i with
    | zero => simp [emitSegGo]
    | succ j =>
      simp only [emitSegGo, List.getElem?_cons_succ, ih (wc + 1) j]
      have harith : wc + 1 + j = wc + (j + 1) := by omega
      rw [harith]

/-- Indexing into the whole emitter: the event at position `i` is built from
the word at position `i` of the flattened stream, with word counter
`wc + i`. -/
theorem emitGo_get : ∀ (segments : List (List WordTok)) (wc i : ℕ),
    (emitGo wc segments)[i]? =
      ((flatWS segments)[i]?).map (fun p => eventForWord (wc + i) p.2 p.1) := by
  intro segments
  induction segments with
  | nil => intro wc i; simp [emitGo, flatWS]
  | cons seg rest ih =>
    intro wc i
    by_cases hseg : seg.isEmpty = true
    · have hnil : seg = [] := List.isEmpty_iff.mp hseg
      subst hnil
      simp [emitGo, flatWS, ih wc i]
    · unfold emitGo flatWS
      rw [if_neg hseg]
      by_cases hi : i < seg.length
      · rw [List.getElem?_append_left (by rw [emitSegGo_length]; exact hi),
          List.getElem?_append_left (by simpa using hi)]
        rw [emitSegGo_get, List.getElem?_map]
        cases seg[i]? <;> simp
      · push_neg at hi
        rw [List.getElem?_append_right (by rw [emitSegGo_length]; exact hi),
          List.getElem?_append_right (by simpa using hi)]
        rw [emitSegGo_length]
        simp only [List.length_map]
        rw [ih (wc + seg.length) (i - seg.length)]
        have harith : wc + seg.length + (i - seg.length) = wc + i := by omega
        rw [harith]

/-- The rotating style row at index `i % 6` is `Color (i % 6 + 1)`. -/
theorem colorStyles_getD (i : ℕ) :
    (colorStyles[i % 6]?).getD "" = "Color" ++ toString (i % 6 + 1) := by
  have h : i % 6 < 6 := Nat.mod_lt _ (by decide)
  set r := i % 6 with hr
  interval_cases r <;> decide

/-- C7: the event emitted at 0-based word index `i` is built from the `i`-th
word of the flattened stream, and its style is the rotating color style
`Color (i % 6 + 1)`, deterministic in the word index alone, unless overridden
in priority order by "Emphasis" (with the text wrapped in sparkle bookends)
when the normalized word is in the emphasis set, else "Celebration" when it
is in the celebration word list, else "Energetic" when it is in the energetic
lexicon. -/
theorem claim_c7 (segments : List (List WordTok)) (i : ℕ) :
    (transcribe_events segments)[i]? =
      ((flatWS segments)[i]?).map (fun p => eventForWord i p.2 p.1) ∧
    (∀ w s, (flatWS segments)[i]? = some (w, s) →
      (eventForWord i s w).style = c7Style i w ∧
      (eventForWord i s w).text =
        (if should_emphasize (normWord w.word) then sparkleWrap (preText s w)
         else preText s w)) := by
  constructor
  · have h := emitGo_get segments 0 i
    simpa [transcribe_events] using h
  · intro w s _
    unfold eventForWord c7Style
    by_cases h1 : should_emphasize (normWord w.word) = true
    · simp [h1]
    · by_cases h2 : normWord w.word ∈ celebrationWords
      · simp [h1, h2]
      · by_cases h3 : normWord w.word ∈ energetic_words
        · simp [h1, h2, h3]
        · simp [h1, h2, h3, colorStyles_getD]

/-- C7 witness: a one-segment stream whose single word "never" is
emphasis-flagged gets style "Emphasis" at word index 0. -/
theorem claim_c7_witness :
    (eventForWord 0 (analyze_sentiment ["never"]) ⟨"never", 0, 1⟩).style =
      "Emphasis" := by
  have h := (claim_c7 [[⟨"never", 0, 1⟩]] 0).2 ⟨"never", 0, 1⟩
    (analyze_sentiment ["never"]) (by decide)
  rw [h.1]
  decide
